import Mathlib

/-!
Shallow embedding of the THPT 2025 score crawler (`crawl.py`) and the merge
utility (`merged.py` / `src/merged_csv.py`).

Conventions of the embedding:
* Python dicts decoded from JSON become the `Payload` / `Item` structures;
  a missing `success` key (falsy) is modelled as `success = false`, the
  defaulted reads `get("total", 0)` and `get("data", [])` are modelled by
  the corresponding structure fields.
* Network effects are made explicit: the sequence of per-attempt HTTP
  responses a fetch observes is an input `responses : Nat -> AttemptResult`,
  the jitter drawn by `random.uniform` at attempt `n` is an input
  `jitter : Nat -> Rat`, and every `asyncio.sleep` is recorded in a list of
  delays (in seconds, as rationals).
* `asyncio.gather(..., return_exceptions=True)` hands the batch loop either
  a returned dict or an exception object; this is the `GatherResult` type.
-/

/-- Fixed configuration constants of `crawl.py`. -/
def BATCH_SIZE : Nat := 200

def MAX_CONSECUTIVE_MISSES : Nat := 1000

def SERIAL_DIGITS : Nat := 6

def RATE_LIMIT_THRESHOLD : Rat := 1/2

def DELAY_BETWEEN_REQUESTS : Rat := 1/2

/-! ## Identifier generator -/

/-- Decimal digits of `n`, most significant first, zero padded on the left to
width `w` (the semantics of the format specifier `{n:0{w}d}`): numbers needing
more than `w` digits keep all their digits. -/
def padDigits (w n : Nat) : List Nat :=
  let ds := (Nat.digits 10 n).reverse
  List.replicate (w - ds.length) 0 ++ ds

/-- Character of one decimal digit. -/
def digitChar (d : Nat) : Char := Char.ofNat (48 + d)

/-- The zero-padded serial part of an identifier, `f"{serial:06d}"`. -/
def serialChars (n : Nat) : List Char := (padDigits SERIAL_DIGITS n).map digitChar

/-- `build_sbd` from `crawl.py`: region code concatenated with the serial
zero padded to `SERIAL_DIGITS` digits. -/
def build_sbd (province : String) (serial : Nat) : String :=
  province ++ String.mk (serialChars serial)

/-- Numeric value of a digit character. -/
def charDigit (c : Char) : Nat := c.toNat - 48

/-- Decode a most-significant-first digit string back to its value. -/
def decodeSerial (cs : List Char) : Nat := Nat.ofDigits 10 ((cs.map charDigit).reverse)

/-! ## Payloads -/

/-- One row of the `data` array of the endpoint response: an optional region
identifier (`TinhId`) and an association list of named numeric fields. -/
structure Item where
  tinhId : Option String
  scores : List (String × Rat)
deriving DecidableEq

/-- A decoded JSON response body. `success = false` also covers a missing
`success` key, and `total` / `data` are the values read with defaults `0`
and `[]`. -/
structure Payload where
  success : Bool
  total : Int
  data : List Item
deriving DecidableEq

/-- The literal dict `{"success": False}` returned by `fetch` when no data is
confirmed; the absent `total` and `data` keys read back as their defaults. -/
def failPayload : Payload := ⟨false, 0, []⟩

/-! ## Fetcher -/

/-- What one attempt of `fetch` observes: an HTTP response with a status code
and decoded body, a timeout, or a client error. -/
inductive AttemptResult where
  | resp (status : Nat) (body : Payload)
  | timeout
  | clientError
deriving DecidableEq

/-- Observable result of one `fetch` call: the returned dict, the number of
attempts performed, and the list of sleeps it executed, in order. -/
structure FetchResult where
  ret : Payload
  attempts : Nat
  delays : List Rat
deriving DecidableEq

/-- The retry loop of `fetch`, starting at 0-indexed attempt `attempt` with
`remaining` loop iterations left.  Mirrors `for attempt in range(retries)`:
HTTP 200 returns immediately (the body when it has the success flag and a
positive total, else `{"success": False}`); HTTP 429 sleeps
`(attempt+1)*10 + jitter` and retries; any other status sleeps
`0.5 + jitter`, a timeout sleeps `1 + jitter`, a client error sleeps
`0.5 + jitter`, each then retrying; an exhausted loop returns
`{"success": False}`. -/
def fetchFrom (responses : Nat → AttemptResult) (jitter : Nat → Rat) :
    Nat → Nat → FetchResult
  | _, 0 => ⟨failPayload, 0, []⟩
  | attempt, remaining + 1 =>
    match responses attempt with
    | .resp status body =>
      if status = 200 then
        if body.success = true ∧ 0 < body.total then ⟨body, 1, []⟩
        else ⟨failPayload, 1, []⟩
      else if status = 429 then
        let d : Rat := (attempt + 1) * 10 + jitter attempt
        let r := fetchFrom responses jitter (attempt + 1) remaining
        ⟨r.ret, r.attempts + 1, d :: r.delays⟩
      else
        let d : Rat := 1/2 + jitter attempt
        let r := fetchFrom responses jitter (attempt + 1) remaining
        ⟨r.ret, r.attempts + 1, d :: r.delays⟩
    | .timeout =>
      let d : Rat := 1 + jitter attempt
      let r := fetchFrom responses jitter (attempt + 1) remaining
      ⟨r.ret, r.attempts + 1, d :: r.delays⟩
    | .clientError =>
      let d : Rat := 1/2 + jitter attempt
      let r := fetchFrom responses jitter (attempt + 1) remaining
      ⟨r.ret, r.attempts + 1, d :: r.delays⟩

/-- `fetch` from `crawl.py` with its default `retries = 3`. -/
def fetch (responses : Nat → AttemptResult) (jitter : Nat → Rat) : FetchResult :=
  fetchFrom responses jitter 0 3

/-- The sleep executed immediately before 1-indexed attempt `k`, when one
exists: the first recorded delay separates attempt 1 from attempt 2, so the
delay before attempt `k` is entry `k - 2` of the delay list. -/
def delayBeforeAttempt (r : FetchResult) (k : Nat) : Option Rat :=
  r.delays.get? (k - 2)

/-! ## Batch executor -/

/-- One element of the list produced by
`asyncio.gather(*tasks, return_exceptions=True)`: either the dict a fetch
returned or the exception object it raised. -/
inductive GatherResult where
  | dict (payload : Payload)
  | exn
deriving DecidableEq

/-- One confirmed record as built by `fetch_batch`: the requested identifier,
the region identifier (payload value, defaulting to the requested province),
and the ordered field map `{subj: item.get(subj, -1) for subj in subjects}`. -/
structure Record where
  sbd : String
  tinh_id : String
  data : List (String × Rat)
deriving DecidableEq

/-- The list `subjects` as written inside `fetch_batch`. -/
def subjects_batch : List String :=
  ["TOAN", "VAN", "NGOAI_NGU", "LI", "HOA", "SINH", "SU", "DIA",
   "GIAO_DUC_CONG_DAN", "TIN_HOC", "CN_CONG_NGHIEP", "CN_NONG_NGHIEP",
   "GDKT_PL", "TONGDIEM"]

/-- The record `fetch_batch` appends for one payload row `item` of a
successful fetch for identifier `sbd` in region `province`. -/
def recordOfItem (province sbd : String) (item : Item) : Record :=
  { sbd := sbd
    tinh_id := item.tinhId.getD province
    data := subjects_batch.map fun subj => (subj, (List.lookup subj item.scores).getD (-1)) }

/-- One step of the aggregation loop of `fetch_batch` over a
`(sbd, result)` pair: an exception or a dict without the success flag bumps
`rate_limit_count`; otherwise every row of `data` appends a record. -/
def processPair (province : String) (acc : List Record × Nat)
    (p : String × GatherResult) : List Record × Nat :=
  match p.2 with
  | .exn => (acc.1, acc.2 + 1)
  | .dict payload =>
    if payload.success = true then
      (acc.1 ++ payload.data.map (recordOfItem province p.1), acc.2)
    else (acc.1, acc.2 + 1)

/-- The identifiers a batch dispatches:
`[build_sbd(province, serial) for serial in range(start, start + size)]`. -/
def batchSbds (province : String) (start_serial batch_size : Nat) : List String :=
  (List.range batch_size).map fun i => build_sbd province (start_serial + i)

/-- Full observable behaviour of one `fetch_batch` call: the returned list
`valid_results`, the internal counter `rate_limit_count`, and the cooldown
sleep executed before returning, when any. -/
structure BatchRun where
  valid_results : List Record
  rate_limit_count : Nat
  cooldownSleep : Option Rat
deriving DecidableEq

/-- Execution of `fetch_batch` in `crawl.py`, with the gathered per-identifier
outcomes supplied as `results : Nat -> GatherResult` (entry `i` is the outcome
for the i-th identifier of the batch).  After the aggregation loop, a cooldown
sleep of 60 seconds is executed when
`rate_limit_count / batch_size >= RATE_LIMIT_THRESHOLD`. -/
def fetch_batch_run (province : String) (start_serial batch_size : Nat)
    (results : Nat → GatherResult) : BatchRun :=
  let sbds := batchSbds province start_serial batch_size
  let pairs := sbds.zip ((List.range batch_size).map results)
  let out := pairs.foldl (processPair province) ([], 0)
  { valid_results := out.1
    rate_limit_count := out.2
    cooldownSleep :=
      if RATE_LIMIT_THRESHOLD ≤ (out.2 : Rat) / (batch_size : Rat) then some 60
      else none }

/-- The value `fetch_batch` actually returns to its caller: the list
`valid_results` alone. -/
def fetch_batch (province : String) (start_serial batch_size : Nat)
    (results : Nat → GatherResult) : List Record :=
  (fetch_batch_run province start_serial batch_size results).valid_results

/-! Declarative descriptions of the batch aggregation, written from the
specification wording, to be compared with the loop above. -/

/-- A gathered outcome that is not a success: an exception, or a dict whose
success flag is absent or false. -/
def isNonSuccess : GatherResult → Bool
  | .exn => true
  | .dict payload => !payload.success

/-- Spec-side count of non-success outcomes among the first `batch_size`
gathered results. -/
def nonSuccessCount (batch_size : Nat) (results : Nat → GatherResult) : Nat :=
  ((List.range batch_size).filter fun i => isNonSuccess (results i)).length

/-- Spec-side records of one dispatched identifier: every payload row of a
successful fetch becomes one record, anything else contributes none. -/
def extractRecords (province : String) (p : String × GatherResult) : List Record :=
  match p.2 with
  | .dict payload =>
    if payload.success = true then payload.data.map (recordOfItem province p.1) else []
  | .exn => []

/-- Spec-side description of the whole batch output: the concatenation, in
dispatch order, of the records of every successful fetch of the batch. -/
def batchRecordsSpec (province : String) (start_serial batch_size : Nat)
    (results : Nat → GatherResult) : List Record :=
  ((batchSbds province start_serial batch_size).zip
      ((List.range batch_size).map results)).flatMap (extractRecords province)

/-! ## Region scanner -/

/-- The list `subjects` as written, a second time, inside
`worker_scan_province`. -/
def subjects_scan : List String :=
  ["TOAN", "VAN", "NGOAI_NGU", "LI", "HOA", "SINH", "SU", "DIA",
   "GIAO_DUC_CONG_DAN", "TIN_HOC", "CN_CONG_NGHIEP", "CN_NONG_NGHIEP",
   "GDKT_PL", "TONGDIEM"]

/-- The hard upper bound `max_serial` of `worker_scan_province`. -/
def max_serial : Nat := 150000

/-- Mutable state of one region scan: the serial cursor, the consecutive-miss
counter, the cumulative confirmed count, the record rows appended to the CSV
after its header, and the number of batches run so far. -/
structure ScanState where
  serial : Nat
  misses : Nat
  total : Nat
  rows : List Record
  batches : Nat
deriving DecidableEq

/-- The `while serial <= max_serial` loop of `worker_scan_province`, with the
result of `fetch_batch` at each serial supplied by `oracle` and an explicit
fuel bound.  A nonempty batch resets the miss counter and appends its records;
an empty one adds `BATCH_SIZE` misses.  The loop breaks once
`MAX_CONSECUTIVE_MISSES` is reached, otherwise advances the cursor by
`BATCH_SIZE`.  `none` means the fuel ran out before the loop exited.
`scanStep` is the body of one iteration: the update of the scan state by the
records one batch returned. -/
def scanStep (st : ScanState) (recs : List Record) : ScanState :=
  if recs.isEmpty then
    { st with misses := st.misses + BATCH_SIZE, batches := st.batches + 1 }
  else
    { st with misses := 0, total := st.total + recs.length,
              rows := st.rows ++ recs, batches := st.batches + 1 }

def scanLoop (oracle : Nat → List Record) : Nat → ScanState → Option ScanState
  | 0, st => if max_serial < st.serial then some st else none
  | fuel + 1, st =>
    if max_serial < st.serial then some st
    else
      let st' := scanStep st (oracle st.serial)
      if MAX_CONSECUTIVE_MISSES ≤ st'.misses then some st'
      else scanLoop oracle fuel { st' with serial := st'.serial + BATCH_SIZE }

/-- `worker_scan_province` for one region: the scan starts at serial 1 with no
misses, and 750 loop iterations always suffice, since the cursor grows by
`BATCH_SIZE = 200` each iteration and the loop exits beyond 150000. -/
def worker_scan_province (oracle : Nat → List Record) : Option ScanState :=
  scanLoop oracle 750 ⟨1, 0, 0, [], 0⟩

/-! ## CSV rows -/

/-- One CSV cell: `csv.writer` receives either a string or a number. -/
inductive CsvField where
  | str (s : String)
  | num (q : Rat)
deriving DecidableEq

/-- The header row `["SBD", "TinhId"] + subjects` written by
`worker_scan_province` when the output file does not exist. -/
def header_row : List CsvField :=
  [CsvField.str "SBD", CsvField.str "TinhId"] ++ subjects_scan.map CsvField.str

/-- Sequential dict indexing `[item["data"][subj] for subj in subjs]`:
`none` models the `KeyError` raised when a key is missing. -/
def lookupAll (data : List (String × Rat)) : List String → Option (List Rat)
  | [] => some []
  | subj :: rest =>
    match List.lookup subj data, lookupAll data rest with
    | some v, some vs => some (v :: vs)
    | _, _ => none

/-- The data row `worker_scan_province` writes for one record:
`[item["sbd"], item["tinh_id"]] + [item["data"][subj] for subj in subjects]`,
or `none` when a subject key is missing from the record. -/
def csvRow (r : Record) : Option (List CsvField) :=
  (lookupAll r.data subjects_scan).map fun vals =>
    [CsvField.str r.sbd, CsvField.str r.tinh_id] ++ vals.map CsvField.num

/-! ## Merge collaborator -/

/-- One row of a per-region CSV as read back by `pandas.read_csv`: the `SBD`
key column and the remaining columns. -/
structure MergeRow where
  sbd : String
  rest : List CsvField
deriving DecidableEq

/-- `drop_duplicates(subset="SBD")` with its default `keep="first"`: keep a
row exactly when its key has not been seen in an earlier row. -/
def dropDuplicatesBySbd : List MergeRow → List String → List MergeRow
  | [], _ => []
  | r :: rs, seen =>
    if r.sbd ∈ seen then dropDuplicatesBySbd rs seen
    else r :: dropDuplicatesBySbd rs (r.sbd :: seen)

/-- `merged_df` from `merged.py` / `src/merged_csv.py`: concatenate all input
tables in order, then drop duplicate `SBD` keys keeping the first survivor. -/
def merged_df (tables : List (List MergeRow)) : List MergeRow :=
  dropDuplicatesBySbd tables.flatten []

/-- Replace an exception outcome by the dict `{"success": False}`, leaving
returned dicts untouched: the absorption that
`isinstance(result, Exception) or not result.get("success")` performs. -/
def exnToFail : GatherResult → GatherResult
  | .exn => .dict failPayload
  | r => r

/-! ## Lemmas on the batch executor -/

theorem foldl_processPair (province : String) (pairs : List (String × GatherResult)) :
    ∀ (l : List Record) (n : Nat),
      pairs.foldl (processPair province) (l, n) =
        (l ++ pairs.flatMap (extractRecords province),
         n + (pairs.filter fun p => isNonSuccess p.2).length) := by
  induction pairs with
  | nil => simp
  | cons p ps ih =>
    intro l n
    obtain ⟨sbd, r⟩ := p
    cases r with
    | exn =>
      simp only [List.foldl_cons, processPair, ih, List.flatMap_cons, extractRecords,
        isNonSuccess, List.filter_cons, List.nil_append, List.length_cons,
        Prod.mk.injEq]
      exact ⟨by simp, by simp; omega⟩
    | dict payload =>
      by_cases hs : payload.success = true
      · simp only [List.foldl_cons, processPair, hs, if_pos, ih, List.flatMap_cons,
          extractRecords, isNonSuccess, List.filter_cons, hs, Bool.not_true,
          List.append_assoc]
        simp
      · simp only [List.foldl_cons, processPair, hs, if_neg, ih, List.flatMap_cons,
          extractRecords, isNonSuccess, List.filter_cons, List.length_cons]
        simp only [Bool.not_eq_true] at hs
        simp [hs]
        omega

theorem countP_filter_zip_snd {α β : Type} (q : β → Bool) (A : List α) :
    ∀ B : List β, A.length = B.length →
      ((A.zip B).filter fun p => q p.2).length = (B.filter q).length := by
  induction A with
  | nil =>
    intro B h
    have hB : B = [] := by
      cases B with
      | nil => rfl
      | cons b B => simp at h
    simp [hB]
  | cons a A ih =>
    intro B h
    cases B with
    | nil => simp at h
    | cons b B =>
      simp only [List.length_cons] at h
      simp only [List.zip_cons_cons, List.filter_cons]
      by_cases hq : q b = true
      · simp [hq, ih B (by omega)]
      · simp [hq, ih B (by omega)]

/-- The aggregation loop of `fetch_batch` computes exactly the spec-side
record list and the spec-side non-success count. -/
theorem fetch_batch_run_spec (province : String) (start size : Nat)
    (results : Nat → GatherResult) :
    (fetch_batch_run province start size results).valid_results =
      batchRecordsSpec province start size results ∧
    (fetch_batch_run province start size results).rate_limit_count =
      nonSuccessCount size results := by
  have hfold := foldl_processPair province
    ((batchSbds province start size).zip ((List.range size).map results)) [] 0
  have hlen : (batchSbds province start size).length =
      ((List.range size).map results).length := by
    simp [batchSbds]
  have hcnt := countP_filter_zip_snd (fun r => isNonSuccess r)
    (batchSbds province start size) ((List.range size).map results) hlen
  constructor
  · simp [fetch_batch_run, batchRecordsSpec, hfold]
  · simp only [fetch_batch_run, hfold]
    rw [hcnt]
    simp [nonSuccessCount, List.filter_map, List.length_map, Function.comp_def]

/-- The cooldown decision of `fetch_batch` in terms of the spec-side
non-success count. -/
theorem fetch_batch_run_cooldown_eq (province : String) (start size : Nat)
    (results : Nat → GatherResult) :
    (fetch_batch_run province start size results).cooldownSleep =
      if RATE_LIMIT_THRESHOLD ≤ (nonSuccessCount size results : Rat) / (size : Rat)
      then some 60 else none := by
  have h2 := (fetch_batch_run_spec province start size results).2
  simp only [fetch_batch_run] at h2 ⊢
  rw [h2]

/-- Claim C1, amended: `fetch_batch` returns exactly the list of confirmed
records extracted, in dispatch order, from the successful fetches of the
batch (possibly empty); the count of non-success outcomes is computed
internally (as `rate_limit_count`, driving the cooldown) but is not part of
the returned value. -/
theorem fetch_batch_returns_records (province : String) (start size : Nat)
    (results : Nat → GatherResult) :
    fetch_batch province start size results =
      batchRecordsSpec province start size results ∧
    (fetch_batch_run province start size results).rate_limit_count =
      nonSuccessCount size results :=
  ⟨(fetch_batch_run_spec province start size results).1,
   (fetch_batch_run_spec province start size results).2⟩

/-- Claim C1, counterexample to the claim as stated: the value `fetch_batch`
returns does not carry the non-success count.  Two batches of size 2 — one
whose second outcome is a success with an empty data array (zero non-success
outcomes), one whose second outcome is the failure dict (one non-success
outcome) — produce identical return values, so the return value of
`fetch_batch` cannot contain the non-success count of the batch. -/
theorem fetch_batch_return_lacks_count :
    fetch_batch "01" 1 2
        (fun i => if i = 0 then GatherResult.dict ⟨true, 1, [⟨none, []⟩]⟩
                  else GatherResult.dict ⟨true, 1, []⟩) =
      fetch_batch "01" 1 2
        (fun i => if i = 0 then GatherResult.dict ⟨true, 1, [⟨none, []⟩]⟩
                  else GatherResult.dict failPayload) ∧
    (fetch_batch_run "01" 1 2
        (fun i => if i = 0 then GatherResult.dict ⟨true, 1, [⟨none, []⟩]⟩
                  else GatherResult.dict ⟨true, 1, []⟩)).rate_limit_count = 0 ∧
    (fetch_batch_run "01" 1 2
        (fun i => if i = 0 then GatherResult.dict ⟨true, 1, [⟨none, []⟩]⟩
                  else GatherResult.dict failPayload)).rate_limit_count = 1 := by
  refine ⟨?_, ?_, ?_⟩
  · show (fetch_batch_run _ _ _ _).valid_results = (fetch_batch_run _ _ _ _).valid_results
    rw [(fetch_batch_run_spec _ _ _ _).1, (fetch_batch_run_spec _ _ _ _).1]
    simp [batchRecordsSpec, batchSbds, List.range_succ, extractRecords, failPayload]
  · rw [(fetch_batch_run_spec _ _ _ _).2]
    decide
  · rw [(fetch_batch_run_spec _ _ _ _).2]
    decide

/-- Claim C3: when the non-success outcomes are at least half of
`batch_size`, `fetch_batch` sleeps 60 seconds before returning, and still
returns exactly the confirmed records extracted from the successful fetches
of the batch. -/
theorem fetch_batch_cooldown (province : String) (start size : Nat)
    (results : Nat → GatherResult)
    (h : RATE_LIMIT_THRESHOLD ≤ (nonSuccessCount size results : Rat) / (size : Rat)) :
    (fetch_batch_run province start size results).cooldownSleep = some 60 ∧
    fetch_batch province start size results =
      batchRecordsSpec province start size results := by
  constructor
  · rw [fetch_batch_run_cooldown_eq, if_pos h]
  · exact (fetch_batch_run_spec province start size results).1

/-- Witness for the cooldown claim: a batch of size 2 whose outcomes are both
exceptions has non-success ratio 1 >= 0.5, sleeps 60 seconds, and returns the
empty record list. -/
theorem fetch_batch_cooldown_witness :
    (fetch_batch_run "01" 1 2 (fun _ => GatherResult.exn)).cooldownSleep = some 60 ∧
    fetch_batch "01" 1 2 (fun _ => GatherResult.exn) =
      batchRecordsSpec "01" 1 2 (fun _ => GatherResult.exn) :=
  fetch_batch_cooldown "01" 1 2 (fun _ => GatherResult.exn) (by
    have hc : nonSuccessCount 2 (fun _ => GatherResult.exn) = 2 := by decide
    rw [hc]
    norm_num [RATE_LIMIT_THRESHOLD])

/-! ## Lemmas on the fetcher -/

/-- Concrete run of `fetch` when every attempt answers HTTP 429: three
attempts, three sleeps of `10 + jitter 0`, `20 + jitter 1`, `30 + jitter 2`
seconds, and the failure dict is returned. -/
theorem fetch_all429 (body : Payload) (jitter : Nat → Rat) :
    fetch (fun _ => .resp 429 body) jitter =
      ⟨failPayload, 3, [10 + jitter 0, 20 + jitter 1, 30 + jitter 2]⟩ := by
  simp [fetch, fetchFrom]
  norm_num

/-- Claim C2, counterexample to the claim as stated: with HTTP 429 on every
attempt and zero jitter, the sleep executed before 1-indexed attempt 2 lasts
10 seconds, which is not `2 * 10 + j` for any jitter `0 <= j < 2` (no sleep
at all precedes attempt 1). -/
theorem backoff_before_attempt_not_k_times_ten :
    delayBeforeAttempt (fetch (fun _ => .resp 429 failPayload) (fun _ => 0)) 2 =
      some 10 ∧
    ∀ j : Rat, 0 ≤ j → j < 2 → (10 : Rat) ≠ 2 * 10 + j := by
  constructor
  · rw [delayBeforeAttempt, fetch_all429]
    norm_num
  · intro j h0 _ he
    linarith

/-- Claim C2, amended: under HTTP 429 on every attempt with the jitter drawn
in `[0, 2)`, `fetch` performs exactly 3 attempts and returns the absence
dict, executing exactly 3 sleeps; the k-th sleep (1-indexed), which follows
attempt k — it precedes attempt k+1 for k < 3 and precedes the return for
k = 3 — lasts `k * 10` seconds plus a jitter strictly within `[0, 2)`. -/
theorem fetch_429_backoff (responses : Nat → AttemptResult) (jitter : Nat → Rat)
    (h429 : ∀ n, ∃ body, responses n = AttemptResult.resp 429 body)
    (hj : ∀ n, 0 ≤ jitter n ∧ jitter n < 2) :
    (fetch responses jitter).ret = failPayload ∧
    (fetch responses jitter).attempts = 3 ∧
    (fetch responses jitter).delays.length = 3 ∧
    ∀ k : Nat, 1 ≤ k → k ≤ 3 →
      ∃ j : Rat, 0 ≤ j ∧ j < 2 ∧
        (fetch responses jitter).delays.get? (k - 1) = some ((k : Rat) * 10 + j) := by
  obtain ⟨b0, e0⟩ := h429 0
  obtain ⟨b1, e1⟩ := h429 1
  obtain ⟨b2, e2⟩ := h429 2
  have hfetch : fetch responses jitter =
      ⟨failPayload, 3, [10 + jitter 0, 20 + jitter 1, 30 + jitter 2]⟩ := by
    simp [fetch, fetchFrom, e0, e1, e2]
    norm_num
  rw [hfetch]
  refine ⟨rfl, rfl, rfl, ?_⟩
  intro k h1 h3
  interval_cases k
  · exact ⟨jitter 0, (hj 0).1, (hj 0).2, by norm_num⟩
  · exact ⟨jitter 1, (hj 1).1, (hj 1).2, by norm_num⟩
  · exact ⟨jitter 2, (hj 2).1, (hj 2).2, by norm_num⟩

/-- Witness for the amended backoff claim at the all-429 response sequence
with zero jitter. -/
theorem fetch_429_backoff_witness :
    (fetch (fun _ => AttemptResult.resp 429 failPayload) (fun _ => 0)).ret =
      failPayload ∧
    (fetch (fun _ => AttemptResult.resp 429 failPayload) (fun _ => 0)).attempts = 3 ∧
    (fetch (fun _ => AttemptResult.resp 429 failPayload) (fun _ => 0)).delays.length
      = 3 ∧
    ∀ k : Nat, 1 ≤ k → k ≤ 3 →
      ∃ j : Rat, 0 ≤ j ∧ j < 2 ∧
        (fetch (fun _ => AttemptResult.resp 429 failPayload)
            (fun _ => 0)).delays.get? (k - 1) = some ((k : Rat) * 10 + j) :=
  fetch_429_backoff (fun _ => AttemptResult.resp 429 failPayload) (fun _ => 0)
    (fun _ => ⟨failPayload, rfl⟩) (fun _ => ⟨le_refl 0, by norm_num⟩)

/-- Claim C5: an HTTP 200 response on the first attempt whose body lacks the
success flag or reports a non-positive total makes `fetch` return the
failure dict immediately: one attempt, no sleep, no retry. -/
theorem fetch_empty_no_retry (responses : Nat → AttemptResult) (jitter : Nat → Rat)
    (body : Payload) (h200 : responses 0 = AttemptResult.resp 200 body)
    (hempty : body.success = false ∨ body.total ≤ 0) :
    fetch responses jitter = ⟨failPayload, 1, []⟩ := by
  have hcond : ¬ (body.success = true ∧ 0 < body.total) := by
    rcases hempty with h | h
    · rintro ⟨hc, -⟩
      rw [h] at hc
      simp at hc
    · rintro ⟨-, hc⟩
      omega
  simp [fetch, fetchFrom, h200, hcond]

/-- Witness for the no-retry claim: an immediate HTTP 200 carrying the
failure dict itself. -/
theorem fetch_empty_no_retry_witness :
    fetch (fun _ => AttemptResult.resp 200 failPayload) (fun _ => 0) =
      ⟨failPayload, 1, []⟩ :=
  fetch_empty_no_retry (fun _ => AttemptResult.resp 200 failPayload) (fun _ => 0)
    failPayload rfl (Or.inl rfl)

/-! ## Lemmas on the region scanner -/

theorem scanStep_serial (st : ScanState) (recs : List Record) :
    (scanStep st recs).serial = st.serial := by
  by_cases he : recs.isEmpty <;> simp [scanStep, he]

/-- Unfolding of one iteration of the scan loop. -/
theorem scanLoop_succ (oracle : Nat → List Record) (fuel : Nat) (st : ScanState) :
    scanLoop oracle (fuel + 1) st =
      if max_serial < st.serial then some st
      else if MAX_CONSECUTIVE_MISSES ≤ (scanStep st (oracle st.serial)).misses then
        some (scanStep st (oracle st.serial))
      else
        scanLoop oracle fuel
          { scanStep st (oracle st.serial) with
              serial := (scanStep st (oracle st.serial)).serial + BATCH_SIZE } := by
  rfl

/-- With enough fuel the scan loop always exits by itself, and any final
state satisfies one of the two stopping conditions: the miss counter reached
the threshold or the cursor moved past the hard serial bound. -/
theorem scanLoop_total (oracle : Nat → List Record) (fuel : Nat) :
    ∀ st : ScanState, max_serial < st.serial + BATCH_SIZE * fuel →
      ∃ st', scanLoop oracle fuel st = some st' ∧
        (MAX_CONSECUTIVE_MISSES ≤ st'.misses ∨ max_serial < st'.serial) := by
  induction fuel with
  | zero =>
    intro st h
    rw [Nat.mul_zero, Nat.add_zero] at h
    exact ⟨st, by simp [scanLoop, h], Or.inr h⟩
  | succ fuel ih =>
    intro st h
    rw [scanLoop_succ]
    by_cases hs : max_serial < st.serial
    · exact ⟨st, by rw [if_pos hs], Or.inr hs⟩
    rw [if_neg hs]
    by_cases hb : MAX_CONSECUTIVE_MISSES ≤ (scanStep st (oracle st.serial)).misses
    · exact ⟨scanStep st (oracle st.serial), by rw [if_pos hb], Or.inl hb⟩
    rw [if_neg hb]
    apply ih
    simp only [scanStep_serial]
    rw [Nat.mul_succ] at h
    omega

/-- Claim C4: with every fetch confirming absence the region scan terminates
after exactly `ceil(MAX_CONSECUTIVE_MISSES / BATCH_SIZE)` batches with no
record row written after the header; and for every oracle whatsoever the scan
reaches a final state in which the consecutive-miss counter has reached the
threshold or the serial cursor has moved past the hard bound. -/
theorem scan_termination (oracle : Nat → List Record) (hempty : ∀ s, oracle s = []) :
    (∃ st, worker_scan_province oracle = some st ∧
      st.batches = (MAX_CONSECUTIVE_MISSES + BATCH_SIZE - 1) / BATCH_SIZE ∧
      st.rows = []) ∧
    ∀ oracle' : Nat → List Record, ∃ st',
      worker_scan_province oracle' = some st' ∧
      (MAX_CONSECUTIVE_MISSES ≤ st'.misses ∨ max_serial < st'.serial) := by
  constructor
  · have ho : oracle = fun _ => [] := funext hempty
    subst ho
    exact ⟨⟨801, 1000, 0, [], 5⟩, by decide, by decide, rfl⟩
  · intro oracle'
    exact scanLoop_total oracle' 750 ⟨1, 0, 0, [], 0⟩ (by decide)

/-- Witness for the termination claim at the constant-`Empty` oracle. -/
theorem scan_termination_witness :
    (∃ st, worker_scan_province (fun _ => []) = some st ∧
      st.batches = (MAX_CONSECUTIVE_MISSES + BATCH_SIZE - 1) / BATCH_SIZE ∧
      st.rows = []) ∧
    ∀ oracle' : Nat → List Record, ∃ st',
      worker_scan_province oracle' = some st' ∧
      (MAX_CONSECUTIVE_MISSES ≤ st'.misses ∨ max_serial < st'.serial) :=
  scan_termination (fun _ => []) (fun _ => rfl)

/-! ## Lemmas on failure absorption -/

theorem extractRecords_exnToFail (province : String) (p : String × GatherResult) :
    extractRecords province (p.1, exnToFail p.2) = extractRecords province p := by
  obtain ⟨s, r⟩ := p
  cases r with
  | exn => simp [exnToFail, extractRecords, failPayload]
  | dict payload => rfl

theorem isNonSuccess_exnToFail (r : GatherResult) :
    isNonSuccess (exnToFail r) = isNonSuccess r := by
  cases r with
  | exn => rfl
  | dict payload => rfl

theorem flatMap_extract_map_exnToFail (province : String) (sbds : List String) :
    ∀ rs : List GatherResult,
      (sbds.zip (rs.map exnToFail)).flatMap (extractRecords province) =
        (sbds.zip rs).flatMap (extractRecords province) := by
  induction sbds with
  | nil => simp
  | cons a as ih =>
    intro rs
    cases rs with
    | nil => simp
    | cons r rs =>
      simp only [List.map_cons, List.zip_cons_cons, List.flatMap_cons, ih]
      rw [extractRecords_exnToFail province (a, r)]

theorem batchRecordsSpec_exnToFail (province : String) (start size : Nat)
    (results : Nat → GatherResult) :
    batchRecordsSpec province start size (fun i => exnToFail (results i)) =
      batchRecordsSpec province start size results := by
  unfold batchRecordsSpec
  rw [show (fun i => exnToFail (results i)) = exnToFail ∘ results from rfl,
    ← List.map_map]
  exact flatMap_extract_map_exnToFail province _ _

theorem nonSuccessCount_exnToFail (size : Nat) (results : Nat → GatherResult) :
    nonSuccessCount size (fun i => exnToFail (results i)) =
      nonSuccessCount size results := by
  unfold nonSuccessCount
  congr 1
  apply List.filter_congr
  intro i _
  rw [isNonSuccess_exnToFail]

theorem BatchRun.ext_of (a b : BatchRun)
    (h1 : a.valid_results = b.valid_results)
    (h2 : a.rate_limit_count = b.rate_limit_count)
    (h3 : a.cooldownSleep = b.cooldownSleep) : a = b := by
  cases a
  cases b
  simp_all

/-- Claim C8: a fetch ending in an exception is indistinguishable, for the
whole observable behaviour of `fetch_batch`, from one returning the failure
dict — it is absorbed into the non-success counter and yields no record —
and the region scan reaches a normal final state for every possible batch
outcome, so no per-identifier failure ever escapes the executor or the
scan. -/
theorem no_failure_escapes (province : String) (start size : Nat)
    (results : Nat → GatherResult) (oracle : Nat → List Record) :
    fetch_batch_run province start size results =
      fetch_batch_run province start size (fun i => exnToFail (results i)) ∧
    (fetch_batch_run province start size results).rate_limit_count =
      nonSuccessCount size results ∧
    (worker_scan_province oracle).isSome := by
  refine ⟨?_, (fetch_batch_run_spec province start size results).2, ?_⟩
  · apply BatchRun.ext_of
    · rw [(fetch_batch_run_spec province start size results).1,
        (fetch_batch_run_spec province start size _).1,
        batchRecordsSpec_exnToFail]
    · rw [(fetch_batch_run_spec province start size results).2,
        (fetch_batch_run_spec province start size _).2,
        nonSuccessCount_exnToFail]
    · rw [fetch_batch_run_cooldown_eq, fetch_batch_run_cooldown_eq,
        nonSuccessCount_exnToFail]
  · obtain ⟨st', hst, -⟩ := scanLoop_total oracle 750 ⟨1, 0, 0, [], 0⟩ (by decide)
    simp [worker_scan_province, hst]

/-! ## Lemmas on record extraction -/

theorem lookup_map_self {β : Type} (f : String → β) :
    ∀ (l : List String) (a : String), a ∈ l →
      List.lookup a (l.map fun s => (s, f s)) = some (f a) := by
  intro l
  induction l with
  | nil =>
    intro a ha
    cases ha
  | cons b l ih =>
    intro a ha
    by_cases hab : a = b
    · subst hab
      simp [List.lookup]
    · have hmem : a ∈ l := by
        rcases List.mem_cons.mp ha with h | h
        · exact absurd h hab
        · exact h
      have hne : (a == b) = false := beq_eq_false_iff_ne.mpr hab
      simp [List.lookup, hne, ih a hmem]

/-- Claim C6: the record extracted from one payload row lists exactly the
14 named subject fields in their fixed order; a field present in the payload
keeps its value and an absent one is set to the sentinel -1; and a
successful payload of n rows yields exactly n records — a row with missing
fields is neither an error nor an omitted record. -/
theorem record_field_defaulting (province sbd : String) (item : Item)
    (payload : Payload) (hs : payload.success = true) :
    (recordOfItem province sbd item).data.map Prod.fst = subjects_batch ∧
    subjects_batch.length = 14 ∧
    (∀ subj, subj ∈ subjects_batch → List.lookup subj item.scores = none →
      List.lookup subj (recordOfItem province sbd item).data = some (-1)) ∧
    (∀ subj v, subj ∈ subjects_batch → List.lookup subj item.scores = some v →
      List.lookup subj (recordOfItem province sbd item).data = some v) ∧
    fetch_batch province 1 1 (fun _ => GatherResult.dict payload) =
      payload.data.map (recordOfItem province (build_sbd province 1)) := by
  refine ⟨?_, by decide, ?_, ?_, ?_⟩
  · simp [recordOfItem, List.map_map, Function.comp_def]
  · intro subj hmem hnone
    have h := lookup_map_self
      (fun s => (List.lookup s item.scores).getD (-1)) subjects_batch subj hmem
    simpa [recordOfItem, hnone] using h
  · intro subj v hmem hv
    have h := lookup_map_self
      (fun s => (List.lookup s item.scores).getD (-1)) subjects_batch subj hmem
    simpa [recordOfItem, hv] using h
  · rw [show fetch_batch province 1 1 (fun _ => GatherResult.dict payload) =
        batchRecordsSpec province 1 1 (fun _ => GatherResult.dict payload) from
      (fetch_batch_run_spec province 1 1 _).1]
    simp [batchRecordsSpec, batchSbds, extractRecords, hs, List.range_succ]

/-- Witness for the field-defaulting claim: a payload row carrying only a
mathematics score. -/
theorem record_field_defaulting_witness :
    (recordOfItem "01" "01000001" ⟨none, [("TOAN", 8)]⟩).data.map Prod.fst =
      subjects_batch ∧
    subjects_batch.length = 14 ∧
    (∀ subj, subj ∈ subjects_batch →
      List.lookup subj ([("TOAN", (8 : Rat))]) = none →
      List.lookup subj
        (recordOfItem "01" "01000001" ⟨none, [("TOAN", 8)]⟩).data = some (-1)) ∧
    (∀ subj v, subj ∈ subjects_batch →
      List.lookup subj ([("TOAN", (8 : Rat))]) = some v →
      List.lookup subj
        (recordOfItem "01" "01000001" ⟨none, [("TOAN", 8)]⟩).data = some v) ∧
    fetch_batch "01" 1 1
        (fun _ => GatherResult.dict ⟨true, 1, [⟨none, [("TOAN", 8)]⟩]⟩) =
      [⟨none, [("TOAN", 8)]⟩].map (recordOfItem "01" (build_sbd "01" 1)) :=
  record_field_defaulting "01" "01000001" ⟨none, [("TOAN", 8)]⟩
    ⟨true, 1, [⟨none, [("TOAN", 8)]⟩]⟩ rfl

/-! ## Lemmas on the identifier generator -/

theorem digits_length_le_of_lt (w n : Nat) (h : n < 10 ^ w) :
    (Nat.digits 10 n).length ≤ w := by
  rcases Nat.eq_zero_or_pos n with h0 | h0
  · subst h0
    simp
  · rw [Nat.digits_len 10 n (by norm_num) (by omega)]
    have := Nat.log_lt_of_lt_pow (by omega : n ≠ 0) h
    omega

theorem padDigits_length (w n : Nat) (h : n < 10 ^ w) :
    (padDigits w n).length = w := by
  have hd := digits_length_le_of_lt w n h
  simp only [padDigits, List.length_append, List.length_replicate, List.length_reverse]
  omega

theorem ofDigits_replicate_zero (b : Nat) : ∀ k, Nat.ofDigits b (List.replicate k 0) = 0 := by
  intro k
  induction k with
  | zero => simp [Nat.ofDigits]
  | succ k ih => simp [List.replicate_succ, Nat.ofDigits, ih]

theorem ofDigits_padDigits (w n : Nat) :
    Nat.ofDigits 10 ((padDigits w n).reverse) = n := by
  simp only [padDigits, List.reverse_append, List.reverse_replicate, List.reverse_reverse]
  rw [Nat.ofDigits_append, Nat.ofDigits_digits, ofDigits_replicate_zero]
  ring

theorem charDigit_digitChar (d : Nat) (hd : d < 10) : charDigit (digitChar d) = d := by
  interval_cases d <;> decide

theorem padDigits_lt (w n d : Nat) (hd : d ∈ padDigits w n) : d < 10 := by
  simp only [padDigits, List.mem_append] at hd
  rcases hd with h | h
  · rw [List.eq_of_mem_replicate h]
    norm_num
  · exact Nat.digits_lt_base (by norm_num) (List.mem_reverse.mp h)

theorem map_charDigit_serialChars (n : Nat) :
    (serialChars n).map charDigit = padDigits SERIAL_DIGITS n := by
  unfold serialChars
  rw [List.map_map]
  have h : ∀ d ∈ padDigits SERIAL_DIGITS n, (charDigit ∘ digitChar) d = id d := by
    intro d hd
    exact charDigit_digitChar d (padDigits_lt SERIAL_DIGITS n d hd)
  rw [List.map_congr_left h, List.map_id]

/-- Claim C7: for a 2-character region code and a serial representable in
6 digits, `build_sbd` yields an 8-character identifier whose first 2
characters are the region code and whose last 6 characters decode back to
the serial. -/
theorem build_sbd_roundtrip (province : String) (serial : Nat)
    (hp : province.length = 2) (hs : serial < 10 ^ SERIAL_DIGITS) :
    (build_sbd province serial).length = 8 ∧
    (build_sbd province serial).toList.take 2 = province.toList ∧
    decodeSerial ((build_sbd province serial).toList.drop 2) = serial := by
  have hchars : (serialChars serial).length = SERIAL_DIGITS := by
    simp only [serialChars, List.length_map]
    exact padDigits_length SERIAL_DIGITS serial hs
  have hdata : (build_sbd province serial).toList =
      province.toList ++ serialChars serial := by
    simp [build_sbd, String.toList]
  have hplen : province.toList.length = 2 := hp
  refine ⟨?_, ?_, ?_⟩
  · show (build_sbd province serial).toList.length = 8
    rw [hdata, List.length_append, hplen, hchars]
    rfl
  · rw [hdata, ← hplen, List.take_left]
  · rw [hdata, ← hplen, List.drop_left, decodeSerial, map_charDigit_serialChars,
      ofDigits_padDigits]

/-- Witness for the identifier round trip at region code 01, serial 123. -/
theorem build_sbd_roundtrip_witness :
    ("01".length = 2 ∧ 123 < 10 ^ SERIAL_DIGITS) ∧
    (build_sbd "01" 123).length = 8 ∧
    (build_sbd "01" 123).toList.take 2 = "01".toList ∧
    decodeSerial ((build_sbd "01" 123).toList.drop 2) = 123 :=
  ⟨⟨rfl, by norm_num [SERIAL_DIGITS]⟩,
   build_sbd_roundtrip "01" 123 rfl (by norm_num [SERIAL_DIGITS])⟩

/-! ## Lemmas on the merge step -/

theorem dropDuplicates_nodup : ∀ (l : List MergeRow) (seen : List String),
    ((dropDuplicatesBySbd l seen).map MergeRow.sbd).Nodup ∧
    ∀ s ∈ seen, s ∉ (dropDuplicatesBySbd l seen).map MergeRow.sbd := by
  intro l
  induction l with
  | nil => simp [dropDuplicatesBySbd]
  | cons r rs ih =>
    intro seen
    by_cases hr : r.sbd ∈ seen
    · simpa [dropDuplicatesBySbd, hr] using ih seen
    · obtain ⟨h1, h2⟩ := ih (r.sbd :: seen)
      simp only [dropDuplicatesBySbd, hr, if_neg, List.map_cons, List.nodup_cons,
        not_false_eq_true]
      refine ⟨⟨h2 r.sbd (by simp), h1⟩, ?_⟩
      intro s hsseen
      simp only [List.mem_cons, not_or]
      exact ⟨fun he => hr (he ▸ hsseen), h2 s (by simp [hsseen])⟩

theorem dropDuplicates_subset : ∀ (l : List MergeRow) (seen : List String),
    ∀ r ∈ dropDuplicatesBySbd l seen, r ∈ l := by
  intro l
  induction l with
  | nil => simp [dropDuplicatesBySbd]
  | cons q rs ih =>
    intro seen r hr
    by_cases hq : q.sbd ∈ seen
    · rw [dropDuplicatesBySbd, if_pos hq] at hr
      exact List.mem_cons_of_mem q (ih seen r hr)
    · rw [dropDuplicatesBySbd, if_neg hq] at hr
      rcases List.mem_cons.mp hr with h | h
      · exact h ▸ List.mem_cons_self q rs
      · exact List.mem_cons_of_mem q (ih (q.sbd :: seen) r h)

theorem dropDuplicates_covers : ∀ (l : List MergeRow) (seen : List String),
    ∀ r ∈ l, r.sbd ∈ seen ∨
      ∃ r' ∈ dropDuplicatesBySbd l seen, r'.sbd = r.sbd := by
  intro l
  induction l with
  | nil => simp
  | cons q rs ih =>
    intro seen r hr
    by_cases hq : q.sbd ∈ seen
    · rw [dropDuplicatesBySbd, if_pos hq]
      rcases List.mem_cons.mp hr with h | h
      · exact Or.inl (h ▸ hq)
      · exact ih seen r h
    · rw [dropDuplicatesBySbd, if_neg hq]
      rcases List.mem_cons.mp hr with h | h
      · exact Or.inr ⟨q, List.mem_cons_self q _, by rw [h]⟩
      · rcases ih (q.sbd :: seen) r h with hseen | ⟨r', hr', he⟩
        · rcases List.mem_cons.mp hseen with h1 | h1
          · exact Or.inr ⟨q, List.mem_cons_self q _, h1.symm⟩
          · exact Or.inl h1
        · exact Or.inr ⟨r', List.mem_cons_of_mem q hr', he⟩

/-- Claim C9: whatever overlapping per-region tables the merge step receives,
its output holds no duplicate identifier — the `SBD` keys of `merged_df` are
pairwise distinct — every output row comes from some input table, and the identifier of every
input row survives in exactly the one row kept for its
duplicate group. -/
theorem merged_df_no_duplicates (tables : List (List MergeRow)) :
    ((merged_df tables).map MergeRow.sbd).Nodup ∧
    (∀ r ∈ merged_df tables, r ∈ tables.flatten) ∧
    (∀ r ∈ tables.flatten, ∃ r' ∈ merged_df tables, r'.sbd = r.sbd) := by
  refine ⟨(dropDuplicates_nodup tables.flatten []).1,
    dropDuplicates_subset tables.flatten [], ?_⟩
  intro r hr
  rcases dropDuplicates_covers tables.flatten [] r hr with h | h
  · cases h
  · exact h

/-- Witness for the merge claim: two overlapping single-row tables keep one
survivor. -/
theorem merged_df_no_duplicates_witness :
    ((merged_df [[⟨"01000001", []⟩], [⟨"01000001", []⟩]]).map MergeRow.sbd).Nodup ∧
    (∀ r ∈ merged_df [[⟨"01000001", []⟩], [⟨"01000001", []⟩]],
      r ∈ ([[⟨"01000001", []⟩], [⟨"01000001", []⟩]] : List (List MergeRow)).flatten) ∧
    (∀ r ∈ ([[⟨"01000001", []⟩], [⟨"01000001", []⟩]] : List (List MergeRow)).flatten,
      ∃ r' ∈ merged_df [[⟨"01000001", []⟩], [⟨"01000001", []⟩]], r'.sbd = r.sbd) :=
  merged_df_no_duplicates [[⟨"01000001", []⟩], [⟨"01000001", []⟩]]

/-! ## Lemmas on CSV rows -/

theorem lookupAll_of_isSome (data : List (String × Rat)) :
    ∀ subjs : List String, (∀ s ∈ subjs, (List.lookup s data).isSome) →
      lookupAll data subjs = some (subjs.map fun s => (List.lookup s data).getD 0) := by
  intro subjs
  induction subjs with
  | nil =>
    intro _
    rfl
  | cons s rest ih =>
    intro h
    obtain ⟨v, hv⟩ := Option.isSome_iff_exists.mp (h s (by simp))
    rw [lookupAll, hv, ih fun x hx => h x (by simp [hx])]
    simp [hv]

/-- Claim C10: the subject list of the batch executor and the one of the
region scanner agree, the header row has 16 cells, and every record the batch
executor can produce yields a data row with the same 16-cell shape — the
identifier, the region id, then the value of each of the 14 subject fields in
header order, with no missing key. -/
theorem rows_match_header (province : String) (start size : Nat)
    (results : Nat → GatherResult) (r : Record)
    (hr : r ∈ fetch_batch province start size results) :
    subjects_batch = subjects_scan ∧
    header_row.length = 16 ∧
    csvRow r = some (CsvField.str r.sbd :: CsvField.str r.tinh_id ::
      (subjects_scan.map fun subj =>
        CsvField.num ((List.lookup subj r.data).getD 0))) ∧
    ∀ row, csvRow r = some row → row.length = header_row.length := by
  have hsubj : subjects_batch = subjects_scan := rfl
  rw [show fetch_batch province start size results =
      batchRecordsSpec province start size results from
    (fetch_batch_run_spec province start size results).1] at hr
  obtain ⟨p, hp, hrp⟩ := List.mem_flatMap.mp hr
  obtain ⟨sbd, g⟩ := p
  cases g with
  | exn => simp [extractRecords] at hrp
  | dict payload =>
    by_cases hsucc : payload.success = true
    case neg => simp [extractRecords, hsucc] at hrp
    case pos =>
      simp only [extractRecords, hsucc, if_true] at hrp
      obtain ⟨item, hitem, hre⟩ := List.mem_map.mp hrp
      subst hre
      have hdata : (recordOfItem province sbd item).data =
          subjects_batch.map fun subj =>
            (subj, (List.lookup subj item.scores).getD (-1)) := rfl
      have hall : ∀ s ∈ subjects_scan,
          (List.lookup s (recordOfItem province sbd item).data).isSome := by
        intro s hsm
        rw [hdata, lookup_map_self _ subjects_batch s (hsubj ▸ hsm)]
        rfl
      have hl := lookupAll_of_isSome (recordOfItem province sbd item).data
        subjects_scan hall
      refine ⟨rfl, rfl, ?_, ?_⟩
      · rw [csvRow, hl]
        simp [List.map_map, Function.comp_def]
      · intro row hrow
        rw [csvRow, hl] at hrow
        injection hrow with h
        rw [← h]
        rfl

/-- Witness for the row-shape claim at a batch of one identifier whose
payload row carries no subject field at all. -/
theorem rows_match_header_witness :
    subjects_batch = subjects_scan ∧
    header_row.length = 16 ∧
    csvRow (recordOfItem "01" (build_sbd "01" 1) ⟨none, []⟩) =
      some (CsvField.str (recordOfItem "01" (build_sbd "01" 1) ⟨none, []⟩).sbd ::
        CsvField.str (recordOfItem "01" (build_sbd "01" 1) ⟨none, []⟩).tinh_id ::
        (subjects_scan.map fun subj =>
          CsvField.num ((List.lookup subj
            (recordOfItem "01" (build_sbd "01" 1) ⟨none, []⟩).data).getD 0))) ∧
    ∀ row, csvRow (recordOfItem "01" (build_sbd "01" 1) ⟨none, []⟩) = some row →
      row.length = header_row.length :=
  rows_match_header "01" 1 1
    (fun _ => GatherResult.dict ⟨true, 1, [⟨none, []⟩]⟩)
    (recordOfItem "01" (build_sbd "01" 1) ⟨none, []⟩)
    (by
      rw [show fetch_batch "01" 1 1
            (fun _ => GatherResult.dict ⟨true, 1, [⟨none, []⟩]⟩) =
          batchRecordsSpec "01" 1 1
            (fun _ => GatherResult.dict ⟨true, 1, [⟨none, []⟩]⟩) from
        (fetch_batch_run_spec "01" 1 1 _).1]
      simp [batchRecordsSpec, batchSbds, List.range_succ, extractRecords])
